import Mathlib

/-!
Verification of the Run Orchestration & Execution Engine of the slack-cline
backend (Python sources under `backend/`), via a shallow embedding in Lean.

Text is modelled as `List Char` (Python strings are sequences of code points;
`len` is list length, the `in` operator is the `strIn` check).  Event-type
tags keep their Python string values.  Subprocess and filesystem outcomes
(git pull / rmtree / clone / worker cancellation) are Boolean oracles fed to
the embedded control flow.
-/

set_option maxRecDepth 100000

namespace SlackCline

/-- Case fold as applied by `str.lower` restricted to the ASCII range that
survives the later `[^a-z0-9\-]` filter of `_slugify`
(backend/modules/agent/workspace_manager.py). -/
def lowerChar (c : Char) : Char := c.toLower

/-- Drop matching characters from the end of a list; together with
`List.dropWhile` this embeds Python's `str.strip` family. -/
def dropTrailing (p : Char → Bool) : List Char → List Char
  | [] => []
  | a :: rest =>
      let r := dropTrailing p rest
      if r.isEmpty && p a then [] else a :: r

/-- Python `s.strip(chars)` for a character class `p`: remove the matching
characters from both ends. -/
def pyStripBy (p : Char → Bool) (l : List Char) : List Char :=
  dropTrailing p (l.dropWhile p)

/-- Python default `str.strip()` (whitespace on both ends). -/
def pyStrip (l : List Char) : List Char :=
  pyStripBy (fun c => c.isWhitespace) l

/-- Python `needle in haystack` on strings: `needle` occurs as a contiguous
substring of `haystack`. -/
def strIn (needle : List Char) : List Char → Bool
  | [] => needle.isEmpty
  | c :: rest => needle.isPrefixOf (c :: rest) || strIn needle rest

/-- Case-insensitive containment, embedding
`pattern.lower() in line_text.lower()` (cli_client.py:225). -/
def strInCI (needle haystack : List Char) : Bool :=
  strIn (needle.map lowerChar) (haystack.map lowerChar)

/-! ## Run model (backend/models/run.py) -/

/-- The `RunStatus` enumeration (run.py:19-27). -/
inductive RunStatus where
  | queued
  | planning
  | awaitingApproval
  | running
  | succeeded
  | failed
  | cancelled
deriving DecidableEq, Repr

/-- The fields of `RunModel` that the orchestration core reads or mutates
(run.py:30-103).  Timestamps are abstract `Nat` instants; nullable columns
are `Option`. -/
structure Run where
  status : RunStatus
  taskPrompt : List Char
  clineRunId : Option (List Char)
  instanceAddress : Option (List Char)
  workspacePath : Option (List Char)
  startedAt : Option Nat
  finishedAt : Option Nat
  summary : Option (List Char)
deriving DecidableEq, Repr

/-- Embeds `RunModel.is_active` (run.py:74-77). -/
def Run.isActive (r : Run) : Bool :=
  r.status = RunStatus.queued ∨ r.status = RunStatus.running

/-- Embeds `RunModel.is_completed` (run.py:79-82). -/
def Run.isCompleted (r : Run) : Bool :=
  r.status = RunStatus.succeeded ∨ r.status = RunStatus.failed ∨
    r.status = RunStatus.cancelled

/-- Whether a status is terminal, i.e. accepted by `mark_completed`
(run.py:97). -/
def terminalStatus (s : RunStatus) : Bool :=
  s = RunStatus.succeeded ∨ s = RunStatus.failed ∨ s = RunStatus.cancelled

/-- Embeds `RunModel.mark_started` (run.py:84-87). -/
def Run.markStarted (r : Run) (now : Nat) : Run :=
  { r with status := RunStatus.running, startedAt := some now }

/-- Embeds `RunModel.mark_completed` (run.py:89-103).  Returns `none` for the
`ValueError` branch on a non-terminal target status; `if summary:` keeps the
old summary when the argument is the empty (falsy) string. -/
def Run.markCompleted (r : Run) (st : RunStatus) (now : Nat)
    (summary : List Char) : Option Run :=
  if terminalStatus st then
    some { r with
            status := st
            finishedAt := some now
            summary := if summary.isEmpty then r.summary else some summary }
  else
    none

/-! ## Workspace slug (backend/modules/agent/workspace_manager.py:56-95) -/

/-- Character class kept by the regex `[^a-z0-9\-]` substitution
(workspace_manager.py:83): lowercase ASCII letters, digits, hyphen. -/
def slugChar (c : Char) : Bool :=
  ('a' ≤ c && c ≤ 'z') || ('0' ≤ c && c ≤ '9') || c = '-'

/-- The regex `re.sub(r'-+', '-', s)` (workspace_manager.py:86): collapse
every maximal run of hyphens to a single hyphen. -/
def collapseHyphens : List Char → List Char
  | [] => []
  | [c] => [c]
  | a :: b :: rest =>
      if a = '-' && b = '-' then collapseHyphens (b :: rest)
      else a :: collapseHyphens (b :: rest)

/-- Embeds `WorkspaceManager._slugify` (workspace_manager.py:56-95): lowercase,
spaces and underscores to hyphens, drop other characters, collapse hyphen
runs, strip end hyphens, fall back to `"workspace"` when empty. -/
def slugify (name : List Char) : List Char :=
  let s1 := name.map lowerChar
  let s2 := s1.map (fun c => if c = ' ' || c = '_' then '-' else c)
  let s3 := s2.filter slugChar
  let s4 := collapseHyphens s3
  let s5 := pyStripBy (fun c => c = '-') s4
  if s5.isEmpty then "workspace".toList else s5

/-- No two adjacent hyphens anywhere in the list. -/
def noDoubleHyphen : List Char → Bool
  | [] => true
  | [_] => true
  | a :: b :: rest => !(a = '-' && b = '-') && noDoubleHyphen (b :: rest)

/-- Filesystem-safety of a slug, following the words of the specification:
only lowercase letters, digits and hyphens, no leading, trailing or
consecutive hyphens. -/
def slugSafe (s : List Char) : Bool :=
  s.all slugChar && noDoubleHyphen s &&
    (s.head? ≠ some '-') && (s.getLast? ≠ some '-')

/-! ## Workspace manager (backend/modules/agent/workspace_manager.py) -/

/-- Abstract state of the workspace directory for one project:
whether the path exists, and whether `path/.git` is a directory. -/
structure FsState where
  pathExists : Bool
  hasGitDir : Bool
deriving DecidableEq, Repr

/-- Embeds `WorkspaceManager._is_valid_workspace` (workspace_manager.py:168-182). -/
def isValidWorkspace (fs : FsState) : Bool :=
  fs.pathExists && fs.hasGitDir

/-- The two `GitError` raises that `get_workspace` can surface: failure to
remove a corrupted directory (workspace_manager.py:142) and a failed clone
(workspace_manager.py:232/240). -/
inductive GitErr where
  | cleanupFailed
  | cloneFailed
deriving DecidableEq, Repr

/-- Filesystem-level operations `get_workspace` performs, in order. -/
inductive WsAction where
  | pullAttempt
  | rmtree
  | clone
deriving DecidableEq, Repr

/-- Embeds `WorkspaceManager.get_workspace` (workspace_manager.py:97-153) over the
abstract filesystem state, with the outcomes of the three subprocess /
filesystem operations supplied as Boolean oracles.  A `GitError` from
`_pull_repository` is caught (py:126-129) and the existing workspace kept;
`shutil.rmtree` failure raises `GitError` (py:140-142); `_clone_repository`
failure raises `GitError` (py:229-240).  Returns the final filesystem state
(at the unchanged slug-derived path) and the actions performed. -/
def getWorkspace (fs : FsState) (pullOk rmOk cloneOk : Bool) :
    Except GitErr (FsState × List WsAction) :=
  if isValidWorkspace fs then
    -- pull latest changes; on GitError keep the existing workspace
    if pullOk then Except.ok (fs, [WsAction.pullAttempt])
    else Except.ok (fs, [WsAction.pullAttempt])
  else if fs.pathExists then
    -- corrupted: rmtree, then clone
    if rmOk then
      if cloneOk then
        Except.ok (⟨true, true⟩, [WsAction.rmtree, WsAction.clone])
      else Except.error GitErr.cloneFailed
    else Except.error GitErr.cleanupFailed
  else
    -- absent: fresh clone
    if cloneOk then Except.ok (⟨true, true⟩, [WsAction.clone])
    else Except.error GitErr.cloneFailed

/-! ## Plan-completeness heuristic
(backend/modules/execution_engine/cli_client.py:341-412) -/

/-- The `still_working_patterns` list (cli_client.py:366-373). -/
def stillWorkingPatterns : List (List Char) :=
  ["Checkpoint created".toList, "API request".toList,
   "↑".toList, "↓".toList, "←".toList, "→".toList,
   "Reading file".toList, "Searching".toList, "Analyzing".toList]

/-- The list `plan_complete_markers["section_header"]` (cli_client.py:382). -/
def sectionHeaderMarkers : List (List Char) :=
  ["## ".toList, "### ".toList]

/-- The list `plan_complete_markers["plan_intro"]` (cli_client.py:383). -/
def planIntroMarkers : List (List Char) :=
  ["Here\x27s".toList, "This approach".toList, "My plan".toList]

/-- The list `plan_complete_markers["numbered_list"]` (cli_client.py:384). -/
def numberedListMarkers : List (List Char) :=
  ["1.".toList, "2.".toList, "3.".toList]

/-- The list `plan_complete_markers["plan_keywords"]` (cli_client.py:385). -/
def planKeywordMarkers : List (List Char) :=
  ["### Progress".toList, "Steps:".toList,
   "I\x27ll proceed".toList, "I will".toList]

/-- Embeds `any(pattern in plan_summary for pattern in still_working_patterns)`
(cli_client.py:375-378). -/
def hasStillWorking (t : List Char) : Bool :=
  stillWorkingPatterns.any (fun p => strIn p t)

/-- Embeds `has_section_header` (cli_client.py:389). -/
def hasSectionHeader (t : List Char) : Bool :=
  sectionHeaderMarkers.any (fun p => strIn p t)

/-- Embeds `has_plan_intro` (cli_client.py:390). -/
def hasPlanIntro (t : List Char) : Bool :=
  planIntroMarkers.any (fun p => strIn p t)

/-- Embeds `numbered_items` (cli_client.py:391): how many of the three numbered-list
markers occur in the text. -/
def numberedItems (t : List Char) : Nat :=
  (numberedListMarkers.filter (fun p => strIn p t)).length

/-- Embeds `has_keywords` (cli_client.py:392). -/
def hasKeywords (t : List Char) : Bool :=
  planKeywordMarkers.any (fun p => strIn p t)

/-- Embeds `total_indicators` (cli_client.py:406): the number of the four signal
categories that hold. -/
def totalIndicators (t : List Char) : Nat :=
  (if hasSectionHeader t then 1 else 0) + (if hasPlanIntro t then 1 else 0) +
    (if 2 ≤ numberedItems t then 1 else 0) + (if hasKeywords t then 1 else 0)

/-- Embeds `ClineCliClient._is_complete_plan` (cli_client.py:341-412).  The
`line_count` argument is accepted but never read by the source body. -/
def isCompletePlan (planSummary : List Char) (lineCount : Nat) : Bool :=
  if planSummary.isEmpty then false
  else if planSummary.length < 500 then false
  else if hasStillWorking planSummary then false
  else if hasSectionHeader planSummary && 2 ≤ numberedItems planSummary then
    true
  else if hasPlanIntro planSummary && 2 ≤ numberedItems planSummary then
    true
  else if 2 ≤ totalIndicators planSummary then true
  else false

/-! ## Event stream (backend/modules/execution_engine/cli_client.py:133-339) -/

/-- The `approval_patterns` list (cli_client.py:208-222). -/
def approvalPatterns : List (List Char) :=
  ["wants to execute".toList, "Approve?".toList,
   "approve this action".toList, "waiting for approval".toList,
   "Do you want to proceed".toList, "wants to run".toList,
   "wants to write".toList, "wants to read".toList,
   "Allow this action".toList, "### Tool use request".toList,
   "execute_command:".toList, "write_to_file:".toList,
   "read_file:".toList]

/-- The task-completion marker (cli_client.py:202). -/
def taskCompletedMarker : List Char := "### Task completed".toList

/-- The progress-section marker (cli_client.py:204). -/
def progressMarker : List Char := "### Progress".toList

/-- Event-type classification of one non-empty stripped output line
(cli_client.py:198-227): default `"step"`, completion marker
`"task_response"`, progress marker `"progress"`, and any (case-insensitive)
approval pattern overrides to `"approval_required"`. -/
def classifyLine (lineText : List Char) : String :=
  let base :=
    if strIn taskCompletedMarker lineText then "task_response"
    else if strIn progressMarker lineText then "progress"
    else "step"
  if approvalPatterns.any (fun p => strInCI p lineText) then
    "approval_required"
  else base

/-- A `RunEventSchema` as produced by `stream_events`, restricted to the
fields the claims mention: the `event_type` string, the message text, and
whether the data payload carries `forced_after_retries` (cli_client.py:290). -/
structure REvent where
  etype : String
  message : List Char
  forcedAfterRetries : Bool
deriving DecidableEq, Repr

/-- One observable of the `while True` read loop of `stream_events`
(cli_client.py:179-302): a decoded output line, an idle timeout together
with the full output `get_task_summary` fetches at that moment
(cli_client.py:252), or EOF with the process exit code and the final summary
fetched when the exit code is zero (cli_client.py:304-312). -/
inductive StreamInput where
  | line (text : List Char)
  | timeout (fetched : List Char)
  | eofExit (exitCode : Int) (finalSummary : List Char)
deriving DecidableEq, Repr

/-- The `PLAN_IDLE_TIMEOUT`-expiry retry cap `MAX_TIMEOUT_RETRIES`
(cli_client.py:157). -/
def maxTimeoutRetries : Nat := 2

/-- Default message of a forced `plan_complete` event when the fetched
summary is empty (cli_client.py:292). -/
def planTimeoutMsg : List Char :=
  "Plan detection timed out - please review task output".toList

/-- The event loop of `stream_events` (cli_client.py:179-335), indexed by
the running `line_count` and `timeout_count`.  Blank lines are skipped
(py:192-193); a non-blank line yields one classified event and bumps
`line_count` (py:195-243); an idle timeout bumps `timeout_count`, emits
`plan_complete` and stops if the fetched output passes `_is_complete_plan`
(py:257-276), force-emits and stops once the retry cap is reached
(py:277-298), and otherwise continues (py:299-302); EOF yields the terminal
`complete` or `error` event (py:304-335). -/
def streamGo : List StreamInput → Nat → Nat → List REvent
  | [], _, _ => []
  | StreamInput.line t :: rest, lineCount, timeoutCount =>
      let s := pyStrip t
      if s.isEmpty then streamGo rest lineCount timeoutCount
      else
        ⟨classifyLine s, s, false⟩ :: streamGo rest (lineCount + 1) timeoutCount
  | StreamInput.timeout fetched :: rest, lineCount, timeoutCount =>
      let timeoutCount' := timeoutCount + 1
      if isCompletePlan fetched lineCount then
        [⟨"plan_complete", fetched, false⟩]
      else if maxTimeoutRetries ≤ timeoutCount' then
        [⟨"plan_complete",
          if fetched.isEmpty then planTimeoutMsg else fetched, true⟩]
      else
        streamGo rest lineCount timeoutCount'
  | StreamInput.eofExit exitCode finalSummary :: _, _, _ =>
      if exitCode = 0 then
        [⟨"complete", finalSummary, false⟩]
      else
        [⟨"error", ("Task failed with exit code ".toList
            ++ (toString exitCode).toList), false⟩]

/-- Embeds `stream_events` starting from `line_count = 0`, `timeout_count = 0`
(cli_client.py:158,176). -/
def streamEvents (inputs : List StreamInput) : List REvent :=
  streamGo inputs 0 0

/-! ## Run orchestrator (backend/modules/orchestrator/service.py) and
startup recovery (backend/main.py:31-62) -/

/-- The status/summary/timestamp mutation `_process_run_event` applies to a
fetched run (service.py:331-339): terminal event types call
`mark_completed`, every other event type leaves the record unchanged.  No
check of the run's current status is made. -/
def processRunEventRun (r : Run) (etype : String) (msg : List Char)
    (now : Nat) : Run :=
  if etype = "complete" then
    (r.markCompleted RunStatus.succeeded now msg).getD r
  else if etype = "error" || etype = "failed" then
    (r.markCompleted RunStatus.failed now msg).getD r
  else if etype = "cancelled" then
    (r.markCompleted RunStatus.cancelled now msg).getD r
  else r

/-- Observable outcome of `RunOrchestratorService.cancel_run`
(service.py:146-200): the returned Boolean, the final run record (`none`
when the lookup failed), and whether the event stream was stopped and the
cancellation update posted. -/
structure CancelOutcome where
  returned : Bool
  run : Option Run
  streamStopped : Bool
  notified : Bool
deriving DecidableEq, Repr

/-- Embeds `RunOrchestratorService.cancel_run` (service.py:146-200).
`workerCancelOk` is the result of `cli_client.cancel_run`, consulted only
when both `cline_instance_address` and `workspace_path` are set
(service.py:178-185); the run is marked CANCELLED when that succeeded or
when `cline_run_id` is unset (service.py:187-198); the returned value is
always `success` (service.py:200). -/
def cancelRun (run? : Option Run) (workerCancelOk : Bool) (now : Nat)
    (reason : List Char) : CancelOutcome :=
  match run? with
  | none => ⟨false, none, false, false⟩
  | some run =>
      if !run.isActive then ⟨false, some run, false, false⟩
      else
        let success :=
          if run.instanceAddress.isSome && run.workspacePath.isSome then
            workerCancelOk
          else false
        if success || run.clineRunId.isNone then
          let run' := (run.markCompleted RunStatus.cancelled now
            ("Cancelled: ".toList ++ reason)).getD run
          ⟨success, some run', true, true⟩
        else
          ⟨success, some run, false, false⟩

/-- The summary written by startup recovery (main.py:51). -/
def restartSummary : List Char :=
  "Server restarted - run was interrupted".toList

/-- Embeds `cleanup_stale_runs` (main.py:31-62): every run whose persisted status
is RUNNING is set to CANCELLED with the restart summary; all other rows are
untouched.  The source also assigns `run.completed_at`, which is not a
column of `RunModel` (the column is `finished_at`), so no timestamp change
is persisted; the embedding accordingly leaves `finishedAt` unchanged. -/
def cleanupStaleRuns (runs : List Run) : List Run :=
  runs.map (fun r =>
    if r.status = RunStatus.running then
      { r with status := RunStatus.cancelled, summary := some restartSummary }
    else r)

/-! ## Theorems -/

/-- C2: For every fetched worker output text and line count, the
plan-completeness check returns false when the text is empty, shorter than
the 500-character minimum, or contains any still-working marker; otherwise
it returns true if and only if at least two of the four signal categories
hold.  Stated as a full functional characterization: the result equals
"length at least 500, no still-working marker, and at least two signal
categories"; the empty text falls under the length test, and the two special
acceptance cases of the source (section header + two numbered items, intro
phrase + two numbered items) are exactly instances of the two-category
threshold. -/
theorem isCompletePlan_characterization (t : List Char) (lc : Nat) :
    isCompletePlan t lc =
      (decide (500 ≤ t.length) && !hasStillWorking t &&
        decide (2 ≤ totalIndicators t)) := by
  by_cases h0 : t.isEmpty
  · have ht : t = [] := by
      cases t with
      | nil => rfl
      | cons a l => simp [List.isEmpty] at h0
    subst ht
    simp [isCompletePlan]
  · by_cases h1 : t.length < 500
    · have : ¬ (500 ≤ t.length) := by omega
      simp [isCompletePlan, h0, h1, this]
    · by_cases h2 : hasStillWorking t
      · simp [isCompletePlan, h0, h1, h2]
      · have h1' : 500 ≤ t.length := by omega
        by_cases hs : hasSectionHeader t <;>
          by_cases hp : hasPlanIntro t <;>
            by_cases hn : 2 ≤ numberedItems t <;>
              by_cases hk : hasKeywords t <;>
                simp [isCompletePlan, h0, h1, h1', h2, totalIndicators,
                  hs, hp, hn, hk]

/-- C7: For every valid workspace (checkout metadata present), a failing
pull (`pullOk = false`) does not raise: `get_workspace` returns the
existing, unchanged workspace after only a pull attempt. -/
theorem getWorkspace_pull_failure_keeps_stale (fs : FsState)
    (rmOk cloneOk : Bool) (h : isValidWorkspace fs = true) :
    getWorkspace fs false rmOk cloneOk =
      Except.ok (fs, [WsAction.pullAttempt]) := by
  simp [getWorkspace, h]

/-- Witness for C7 at a concrete valid workspace. -/
theorem getWorkspace_pull_failure_keeps_stale_witness :
    getWorkspace ⟨true, true⟩ false true true =
      Except.ok ((⟨true, true⟩ : FsState), [WsAction.pullAttempt]) :=
  getWorkspace_pull_failure_keeps_stale ⟨true, true⟩ true true (by decide)

/-- C5: For every workspace path that exists but lacks version-control
metadata, `get_workspace` removes the tree and performs a fresh clone
(returning a valid workspace) when both operations succeed, fails with the
cleanup error when deletion fails, and fails with the clone error when the
fresh clone fails; moreover, on any input, a successfully returned workspace
is valid. -/
theorem getWorkspace_corrupted_recovery (fs : FsState)
    (pullOk rmOk cloneOk : Bool) :
    (fs.pathExists = true → fs.hasGitDir = false →
      getWorkspace fs pullOk rmOk cloneOk =
        (if rmOk then
          (if cloneOk then
            Except.ok ((⟨true, true⟩ : FsState),
              [WsAction.rmtree, WsAction.clone])
          else Except.error GitErr.cloneFailed)
         else Except.error GitErr.cleanupFailed)) ∧
    (∀ fs' acts, getWorkspace fs pullOk rmOk cloneOk =
        Except.ok (fs', acts) → isValidWorkspace fs' = true) := by
  obtain ⟨pe, hg⟩ := fs
  constructor
  · intro h1 h2
    subst h1; subst h2
    cases rmOk <;> cases cloneOk <;> simp [getWorkspace, isValidWorkspace]
  · intro fs' acts h
    cases pe <;> cases hg <;> cases pullOk <;> cases rmOk <;> cases cloneOk <;>
      simp [getWorkspace, isValidWorkspace] at h ⊢ <;>
        simp [h.1.symm, isValidWorkspace]

/-- Witness for C5: a directory that exists without `.git` is deleted and
freshly cloned, and the result is valid. -/
theorem getWorkspace_corrupted_recovery_witness :
    getWorkspace ⟨true, false⟩ true true true =
      Except.ok ((⟨true, true⟩ : FsState),
        [WsAction.rmtree, WsAction.clone]) ∧
    isValidWorkspace ⟨true, true⟩ = true := by
  have h := getWorkspace_corrupted_recovery ⟨true, false⟩ true true true
  refine ⟨?_, ?_⟩
  · have := h.1 (by decide) (by decide)
    simpa using this
  · exact h.2 ⟨true, true⟩ [WsAction.rmtree, WsAction.clone]
      (by simpa using h.1 (by decide) (by decide))

/-- C8: cancelling a run that does not exist, or whose status is neither
QUEUED nor RUNNING, returns false and changes nothing: the record is left
as it was, the stream is not stopped, and no notification is posted. -/
theorem cancelRun_inactive_noop (run? : Option Run) (ok : Bool) (now : Nat)
    (reason : List Char) :
    (run? = none → cancelRun run? ok now reason = ⟨false, none, false, false⟩) ∧
    (∀ run, run? = some run → run.isActive = false →
      cancelRun run? ok now reason = ⟨false, some run, false, false⟩) := by
  constructor
  · rintro rfl
    rfl
  · rintro run rfl h
    simp [cancelRun, h]

/-- Witness for C8 at a SUCCEEDED run and at a missing run. -/
theorem cancelRun_inactive_noop_witness :
    cancelRun none true 3 "r".toList = ⟨false, none, false, false⟩ ∧
    cancelRun (some ⟨RunStatus.succeeded, [], none, none, none, none,
        some 2, none⟩) true 3 "r".toList =
      ⟨false, some ⟨RunStatus.succeeded, [], none, none, none, none,
        some 2, none⟩, false, false⟩ := by
  refine ⟨?_, ?_⟩
  · exact (cancelRun_inactive_noop none true 3 "r".toList).1 rfl
  · exact (cancelRun_inactive_noop _ true 3 "r".toList).2 _ rfl (by decide)

/-- C6: startup recovery marks exactly the RUNNING rows CANCELLED with the
restart summary and leaves every other row untouched; afterwards no row is
RUNNING. -/
theorem cleanupStaleRuns_spec (runs : List Run) :
    (∀ r' ∈ cleanupStaleRuns runs, r'.status ≠ RunStatus.running) ∧
    (∀ (i : Nat) (r : Run), runs[i]? = some r →
      (cleanupStaleRuns runs)[i]? =
        some (if r.status = RunStatus.running then
          { r with status := RunStatus.cancelled,
                   summary := some restartSummary }
        else r)) := by
  constructor
  · intro r' hr'
    simp only [cleanupStaleRuns, List.mem_map] at hr'
    obtain ⟨r, _, rfl⟩ := hr'
    by_cases h : r.status = RunStatus.running <;> simp [h]
  · intro i r h
    simp [cleanupStaleRuns, List.getElem?_map, h]

/-- A concrete two-row run table with one RUNNING and one SUCCEEDED row,
used to witness the startup-recovery theorem. -/
def staleTable : List Run :=
  [⟨RunStatus.running, [], none, none, none, some 1, none, none⟩,
   ⟨RunStatus.succeeded, [], none, none, none, some 1, some 2, none⟩]

/-- Witness for C6 on a two-row table: the RUNNING row is cancelled with
the restart summary, the SUCCEEDED row is untouched. -/
theorem cleanupStaleRuns_spec_witness :
    (∀ r' ∈ cleanupStaleRuns staleTable, r'.status ≠ RunStatus.running) ∧
    (cleanupStaleRuns staleTable)[0]? =
      some ⟨RunStatus.cancelled, [], none, none, none, some 1, none,
        some restartSummary⟩ ∧
    (cleanupStaleRuns staleTable)[1]? =
      some ⟨RunStatus.succeeded, [], none, none, none, some 1, some 2,
        none⟩ := by
  refine ⟨(cleanupStaleRuns_spec staleTable).1, ?_, ?_⟩
  · have h := (cleanupStaleRuns_spec staleTable).2 0
      ⟨RunStatus.running, [], none, none, none, some 1, none, none⟩
      (by decide)
    simpa using h
  · have h := (cleanupStaleRuns_spec staleTable).2 1
      ⟨RunStatus.succeeded, [], none, none, none, some 1, some 2, none⟩
      (by decide)
    simpa using h

/-- A run that has already reached the terminal status CANCELLED (for
example through `cancel_run`), still known to the consumer task. -/
def cancelledRun : Run :=
  ⟨RunStatus.cancelled, "fix the bug".toList, some "t1".toList,
    some "127.0.0.1:50052".toList, some "/data/workspaces/p".toList,
    some 1, some 5, some "Cancelled: user request".toList⟩

/-- C1 (code evaluated at the failing input): `_process_run_event` applies
`mark_completed` without checking the run's current status
(service.py:331-339), so a `"complete"` event processed for a run already
in the terminal status CANCELLED re-marks it SUCCEEDED and overwrites
`finished_at` — the run observes two terminal statuses, contradicting the
stated invariant.  Contrast the guarded error path (service.py:294), which
checks `is_active` before marking. -/
theorem processRunEvent_remarks_terminal_run :
    cancelledRun.isCompleted = true ∧
    cancelledRun.status = RunStatus.cancelled ∧
    (processRunEventRun cancelledRun "complete" "done".toList 9).status =
      RunStatus.succeeded ∧
    (processRunEventRun cancelledRun "complete" "done".toList 9).finishedAt =
      some 9 := by
  decide

/-- A worker output line that matches no approval pattern, no completion
marker and no progress marker. -/
def plainLine : List Char := "Let me inspect the repository layout".toList

/-- C4 counterexample: a non-empty line matching no approval-request
pattern, no completion marker and no progress marker is emitted with event
kind `"step"`, not `"progress"` as claimed — `"progress"` is reserved for
lines containing the `"### Progress"` marker (cli_client.py:199-204). -/
theorem classifyLine_default_not_progress :
    (pyStrip plainLine).isEmpty = false ∧
    strIn taskCompletedMarker plainLine = false ∧
    strIn progressMarker plainLine = false ∧
    approvalPatterns.any (fun p => strInCI p plainLine) = false ∧
    streamEvents [StreamInput.line plainLine] =
      [⟨"step", plainLine, false⟩] ∧
    "step" ≠ "progress" := by
  decide

/-- C4 as amended: for every worker output line that is non-blank after
stripping and matches no approval-request pattern, no task-completion
marker and no progress-section marker, the stream emits a RunEvent of the
default kind `"step"` for it. -/
theorem streamGo_default_step (t : List Char) (rest : List StreamInput)
    (lc tc : Nat)
    (hne : (pyStrip t).isEmpty = false)
    (hco : strIn taskCompletedMarker (pyStrip t) = false)
    (hpr : strIn progressMarker (pyStrip t) = false)
    (hap : approvalPatterns.any (fun p => strInCI p (pyStrip t)) = false) :
    streamGo (StreamInput.line t :: rest) lc tc =
      ⟨"step", pyStrip t, false⟩ :: streamGo rest (lc + 1) tc := by
  simp [streamGo, hne, classifyLine, hco, hpr, hap]

/-- Witness for the amended C4 at a concrete line. -/
theorem streamGo_default_step_witness :
    streamGo [StreamInput.line plainLine] 0 0 =
      [⟨"step", plainLine, false⟩] := by
  have h := streamGo_default_step plainLine [] 0 0 (by decide) (by decide)
    (by decide) (by decide)
  simpa using h

/-- An active run whose record carries an instance address and workspace
path but no worker task id. -/
def noTaskIdRun : Run :=
  ⟨RunStatus.running, "fix the bug".toList, none,
    some "127.0.0.1:50052".toList, some "/data/workspaces/p".toList,
    some 1, none, none⟩

/-- C10 counterexample: for an active run whose `cline_run_id` is unset but
whose instance address and workspace path are set, a successful worker-side
cancellation makes `cancel_run` return `true` (service.py:178-200) — the
claim that it "still returns false" whenever the task id is unset is
refuted. -/
theorem cancelRun_noTaskId_returns_true :
    noTaskIdRun.isActive = true ∧
    noTaskIdRun.clineRunId = none ∧
    (cancelRun (some noTaskIdRun) true 7 "user".toList).returned = true := by
  decide

/-- C10 as amended: for an active run with no worker task id, the record is
transitioned to CANCELLED with a cancellation summary while the returned
Boolean is the worker-side cancellation result — `false` whenever no
worker-side attempt was made (instance address or workspace path unset) or
the attempt failed; conversely, an active run whose worker-side attempt
fails and whose task id is set keeps its status and gets `false`.  The
return value reports worker-process cancellation success, not whether the
run reached CANCELLED. -/
theorem cancelRun_reports_worker_result (run : Run) (ok : Bool) (now : Nat)
    (reason : List Char) :
    (run.isActive = true → run.clineRunId = none →
      (cancelRun (some run) ok now reason).run =
        some ((run.markCompleted RunStatus.cancelled now
          ("Cancelled: ".toList ++ reason)).getD run) ∧
      (cancelRun (some run) ok now reason).returned =
        (run.instanceAddress.isSome && run.workspacePath.isSome && ok)) ∧
    (run.isActive = true → run.clineRunId.isSome = true →
      run.instanceAddress.isSome = true → run.workspacePath.isSome = true →
      ok = false →
      cancelRun (some run) ok now reason =
        ⟨false, some run, false, false⟩) := by
  constructor
  · intro hact hid
    constructor
    · simp [cancelRun, hact, hid]
    · simp [cancelRun, hact, hid]
  · intro hact hid hi hw hok
    subst hok
    have : run.clineRunId.isNone = false := by
      cases h : run.clineRunId <;> simp [h] at hid ⊢
    simp [cancelRun, hact, hi, hw, this]

/-- Witness for the amended C10: with no task id and no instance address
the run is cancelled yet `false` is returned; with a task id and a failing
worker-side attempt nothing changes and `false` is returned. -/
theorem cancelRun_reports_worker_result_witness :
    (cancelRun (some ⟨RunStatus.queued, [], none, none, none, none, none,
        none⟩) true 3 "r".toList).run =
      some ⟨RunStatus.cancelled, [], none, none, none, none, some 3,
        some "Cancelled: r".toList⟩ ∧
    (cancelRun (some ⟨RunStatus.queued, [], none, none, none, none, none,
        none⟩) true 3 "r".toList).returned = false ∧
    cancelRun (some ⟨RunStatus.running, [], some "t".toList,
        some "a".toList, some "w".toList, some 1, none, none⟩) false 3
        "r".toList =
      ⟨false, some ⟨RunStatus.running, [], some "t".toList,
        some "a".toList, some "w".toList, some 1, none, none⟩, false,
        false⟩ := by
  refine ⟨?_, ?_, ?_⟩
  · have h := (cancelRun_reports_worker_result
      ⟨RunStatus.queued, [], none, none, none, none, none, none⟩ true 3
      "r".toList).1 (by decide) (by decide)
    rw [h.1]
    decide
  · have h := (cancelRun_reports_worker_result
      ⟨RunStatus.queued, [], none, none, none, none, none, none⟩ true 3
      "r".toList).1 (by decide) (by decide)
    rw [h.2]
    decide
  · exact (cancelRun_reports_worker_result
      ⟨RunStatus.running, [], some "t".toList, some "a".toList,
        some "w".toList, some 1, none, none⟩ false 3 "r".toList).2
      (by decide) (by decide) (by decide) (by decide) rfl

/-- A classified output line is never a `plan_complete` event: line events
carry one of the four classification tags (cli_client.py:198-227). -/
theorem classifyLine_ne_plan_complete (t : List Char) :
    classifyLine t ≠ "plan_complete" := by
  unfold classifyLine
  by_cases ha : approvalPatterns.any (fun p => strInCI p t)
  · simp [ha]
  · by_cases hc : strIn taskCompletedMarker t
    · simp [ha, hc]
    · by_cases hp : strIn progressMarker t <;> simp [ha, hc, hp]

/-- Any `plan_complete` event in the stream is its last element: once the
plan is detected (or force-emitted), the stream terminates. -/
theorem streamGo_plan_complete_terminal :
    ∀ (inputs : List StreamInput) (lc tc : Nat) (pre : List REvent)
      (e : REvent) (post : List REvent),
      streamGo inputs lc tc = pre ++ e :: post →
      e.etype = "plan_complete" → post = [] := by
  intro inputs
  induction inputs with
  | nil =>
      intro lc tc pre e post h _
      simp [streamGo] at h
  | cons x rest ih =>
      intro lc tc pre e post h he
      cases x with
      | line t =>
          by_cases hs : (pyStrip t).isEmpty
          · rw [show streamGo (StreamInput.line t :: rest) lc tc =
                streamGo rest lc tc by simp [streamGo, hs]] at h
            exact ih lc tc pre e post h he
          · rw [show streamGo (StreamInput.line t :: rest) lc tc =
                ⟨classifyLine (pyStrip t), pyStrip t, false⟩ ::
                  streamGo rest (lc + 1) tc by simp [streamGo, hs]] at h
            cases pre with
            | nil =>
                simp at h
                obtain ⟨h1, -⟩ := h
                exact absurd (h1 ▸ he)
                  (by simpa using classifyLine_ne_plan_complete (pyStrip t))
            | cons p pre' =>
                simp at h
                exact ih (lc + 1) tc pre' e post h.2 he
      | timeout f =>
          by_cases hp : isCompletePlan f lc
          · rw [show streamGo (StreamInput.timeout f :: rest) lc tc =
                [⟨"plan_complete", f, false⟩] by simp [streamGo, hp]] at h
            rcases pre with - | ⟨p, pre'⟩
            · simp at h
              exact h.2
            · simp at h
          · by_cases hm : maxTimeoutRetries ≤ tc + 1
            · rw [show streamGo (StreamInput.timeout f :: rest) lc tc =
                  [⟨"plan_complete",
                    if f.isEmpty then planTimeoutMsg else f, true⟩] by
                  simp [streamGo, hp, hm]] at h
              rcases pre with - | ⟨p, pre'⟩
              · simp at h
                exact h.2
              · simp at h
            · rw [show streamGo (StreamInput.timeout f :: rest) lc tc =
                  streamGo rest lc (tc + 1) by simp [streamGo, hp, hm]] at h
              exact ih lc (tc + 1) pre e post h he
      | eofExit ec fs =>
          by_cases hz : ec = 0
          · rw [show streamGo (StreamInput.eofExit ec fs :: rest) lc tc =
                [⟨"complete", fs, false⟩] by simp [streamGo, hz]] at h
            rcases pre with - | ⟨p, pre'⟩
            · simp at h
              exact h.2
            · simp at h
          · rw [show streamGo (StreamInput.eofExit ec fs :: rest) lc tc =
                [⟨"error", "Task failed with exit code ".toList ++
                  (toString ec).toList, false⟩] by simp [streamGo, hz]] at h
            rcases pre with - | ⟨p, pre'⟩
            · simp at h
              exact h.2
            · simp at h

/-- C3: while streaming, at most one `plan_complete` event is emitted and
no event follows it (first conjunct: a `plan_complete` is always the last
element); it is emitted exactly when an idle timeout's freshly fetched full
output passes the plan-completeness heuristic (second conjunct); on the
first idle timeout with a rejecting heuristic nothing is emitted and the
loop continues (third conjunct, timeout counter 0 → 1); and once the retry
cap `maxTimeoutRetries = 2` is reached (any prior timeout already counted)
the event is force-emitted with the `forced_after_retries` flag even though
the heuristic still rejects, terminating the stream (fourth conjunct). -/
theorem streamEvents_plan_complete_protocol :
    (∀ (inputs : List StreamInput) (lc tc : Nat) (pre : List REvent)
        (e : REvent) (post : List REvent),
        streamGo inputs lc tc = pre ++ e :: post →
        e.etype = "plan_complete" → post = []) ∧
    (∀ (f : List Char) (rest : List StreamInput) (lc tc : Nat),
        isCompletePlan f lc = true →
        streamGo (StreamInput.timeout f :: rest) lc tc =
          [⟨"plan_complete", f, false⟩]) ∧
    (∀ (f : List Char) (rest : List StreamInput) (lc : Nat),
        isCompletePlan f lc = false →
        streamGo (StreamInput.timeout f :: rest) lc 0 =
          streamGo rest lc 1) ∧
    (∀ (f : List Char) (rest : List StreamInput) (lc tc : Nat),
        isCompletePlan f lc = false → 1 ≤ tc →
        streamGo (StreamInput.timeout f :: rest) lc tc =
          [⟨"plan_complete",
            if f.isEmpty then planTimeoutMsg else f, true⟩]) := by
  refine ⟨streamGo_plan_complete_terminal, ?_, ?_, ?_⟩
  · intro f rest lc tc hp
    simp [streamGo, hp]
  · intro f rest lc hp
    simp [streamGo, hp, maxTimeoutRetries]
  · intro f rest lc tc hp htc
    have hm : maxTimeoutRetries ≤ tc + 1 := by
      simp only [maxTimeoutRetries]
      omega
    simp [streamGo, hp, hm]

/-- A well-formed plan text, longer than 500 characters, with a section
header and two numbered items. -/
def samplePlan : List Char :=
  "## Plan 1. first step 2. second step ".toList ++ List.replicate 480 'x'

/-- Witness for C3: the sample plan is detected and emitted on the first
idle timeout; a stalled stream whose fetched output says "Reading file"
gets nothing on the first timeout but a forced `plan_complete` on the
second. -/
theorem streamEvents_plan_complete_protocol_witness :
    streamEvents [StreamInput.timeout samplePlan] =
      [⟨"plan_complete", samplePlan, false⟩] ∧
    streamEvents [StreamInput.timeout "Reading file x".toList,
        StreamInput.timeout "Reading file x".toList] =
      [⟨"plan_complete", "Reading file x".toList, true⟩] := by
  constructor
  · exact streamEvents_plan_complete_protocol.2.1 samplePlan [] 0 0
      (by decide)
  · have h1 := streamEvents_plan_complete_protocol.2.2.1
      "Reading file x".toList [StreamInput.timeout "Reading file x".toList]
      0 (by decide)
    have h2 := streamEvents_plan_complete_protocol.2.2.2
      "Reading file x".toList [] 0 1 (by decide) (by decide)
    unfold streamEvents
    rw [h1, h2]
    decide

/-- Collapsing hyphen runs keeps the first character. -/
theorem collapseHyphens_head? (l : List Char) :
    (collapseHyphens l).head? = l.head? := by
  induction l using collapseHyphens.induct with
  | case1 => rfl
  | case2 c => rfl
  | case3 a b rest h ih =>
      rw [show collapseHyphens (a :: b :: rest) = collapseHyphens (b :: rest)
        by simp [collapseHyphens, h]]
      rw [ih]
      have hab : a = '-' ∧ b = '-' := by simpa using h
      simp [hab.1, hab.2]
  | case4 a b rest h ih =>
      rw [show collapseHyphens (a :: b :: rest) =
        a :: collapseHyphens (b :: rest) by simp [collapseHyphens, h]]
      simp

/-- Collapsing hyphen runs yields a sublist of the input. -/
theorem collapseHyphens_sublist (l : List Char) :
    List.Sublist (collapseHyphens l) l := by
  induction l using collapseHyphens.induct with
  | case1 => simp [collapseHyphens]
  | case2 c => simp [collapseHyphens]
  | case3 a b rest h ih =>
      rw [show collapseHyphens (a :: b :: rest) = collapseHyphens (b :: rest)
        by simp [collapseHyphens, h]]
      exact ih.cons a
  | case4 a b rest h ih =>
      rw [show collapseHyphens (a :: b :: rest) =
        a :: collapseHyphens (b :: rest) by simp [collapseHyphens, h]]
      exact ih.cons₂ a

/-- After collapsing, no two adjacent hyphens remain. -/
theorem noDoubleHyphen_collapseHyphens (l : List Char) :
    noDoubleHyphen (collapseHyphens l) = true := by
  induction l using collapseHyphens.induct with
  | case1 => rfl
  | case2 c => rfl
  | case3 a b rest h ih =>
      rw [show collapseHyphens (a :: b :: rest) = collapseHyphens (b :: rest)
        by simp [collapseHyphens, h]]
      exact ih
  | case4 a b rest h ih =>
      rw [show collapseHyphens (a :: b :: rest) =
        a :: collapseHyphens (b :: rest) by simp [collapseHyphens, h]]
      cases hx : collapseHyphens (b :: rest) with
      | nil => rfl
      | cons x xs =>
          have hxb : x = b := by
            have := collapseHyphens_head? (b :: rest)
            rw [hx] at this
            simpa using this
          rw [show noDoubleHyphen (a :: x :: xs) =
            (!(a = '-' && x = '-') && noDoubleHyphen (x :: xs)) from rfl]
          rw [← hx, ih, hxb]
          have h' : a = '-' → ¬ b = '-' := by simpa using h
          by_cases ha : a = '-' <;> simp [ha]
          exact h' ha

/-- The predicate `noDoubleHyphen` passes from a list to its tail. -/
theorem noDoubleHyphen_tail (a : Char) (l : List Char)
    (h : noDoubleHyphen (a :: l) = true) : noDoubleHyphen l = true := by
  cases l with
  | nil => rfl
  | cons b r =>
      rw [show noDoubleHyphen (a :: b :: r) =
        (!(a = '-' && b = '-') && noDoubleHyphen (b :: r)) from rfl] at h
      exact (Bool.and_eq_true_iff.mp h).2

/-- The predicate `noDoubleHyphen` survives dropping a prefix. -/
theorem noDoubleHyphen_dropWhile (p : Char → Bool) (l : List Char)
    (h : noDoubleHyphen l = true) :
    noDoubleHyphen (l.dropWhile p) = true := by
  induction l with
  | nil => simpa using h
  | cons a t ih =>
      rw [List.dropWhile_cons]
      by_cases hp : p a = true
      · simp only [hp, if_true]
        exact ih (noDoubleHyphen_tail a t h)
      · simp only [hp]
        simpa using h

/-- The head surviving `dropWhile` does not satisfy the predicate. -/
theorem head?_dropWhile_not (p : Char → Bool) (l : List Char) (c : Char)
    (h : (l.dropWhile p).head? = some c) : p c = false := by
  induction l with
  | nil => simp [List.dropWhile] at h
  | cons a t ih =>
      rw [List.dropWhile_cons] at h
      by_cases hp : p a = true
      · simp only [hp, if_true] at h
        exact ih h
      · simp only [hp] at h
        simp at h
        rw [← h]
        simpa using hp

/-- The function `dropTrailing` either empties the list or keeps its head. -/
theorem dropTrailing_head? (p : Char → Bool) (l : List Char) :
    dropTrailing p l = [] ∨ (dropTrailing p l).head? = l.head? := by
  cases l with
  | nil => exact Or.inl rfl
  | cons a rest =>
      rw [show dropTrailing p (a :: rest) =
        (if (dropTrailing p rest).isEmpty && p a then []
         else a :: dropTrailing p rest) from rfl]
      by_cases h : (dropTrailing p rest).isEmpty && p a
      · simp [h]
      · simp [h]

/-- The function `dropTrailing` yields a sublist (in fact a prefix) of the input. -/
theorem dropTrailing_sublist (p : Char → Bool) (l : List Char) :
    List.Sublist (dropTrailing p l) l := by
  induction l with
  | nil => simp [dropTrailing]
  | cons a rest ih =>
      rw [show dropTrailing p (a :: rest) =
        (if (dropTrailing p rest).isEmpty && p a then []
         else a :: dropTrailing p rest) from rfl]
      by_cases h : (dropTrailing p rest).isEmpty && p a
      · simp [h]
      · simp only [h, if_false, Bool.false_eq_true]
        exact ih.cons₂ a

/-- The predicate `noDoubleHyphen` survives dropping a trailing run. -/
theorem noDoubleHyphen_dropTrailing (p : Char → Bool) (l : List Char)
    (h : noDoubleHyphen l = true) :
    noDoubleHyphen (dropTrailing p l) = true := by
  induction l with
  | nil => rfl
  | cons a rest ih =>
      rw [show dropTrailing p (a :: rest) =
        (if (dropTrailing p rest).isEmpty && p a then []
         else a :: dropTrailing p rest) from rfl]
      by_cases hc : (dropTrailing p rest).isEmpty && p a
      · simp [hc, noDoubleHyphen]
      · simp only [hc, if_false, Bool.false_eq_true]
        have hrest := ih (noDoubleHyphen_tail a rest h)
        cases hx : dropTrailing p rest with
        | nil => rfl
        | cons x xs =>
            have hhead := dropTrailing_head? p rest
            rcases hhead with he | he
            · rw [he] at hx
              exact absurd hx (by simp)
            · rw [hx] at he
              cases rest with
              | nil => simp [dropTrailing] at hx
              | cons b r =>
                  have hxb : x = b := by simpa using he
                  subst hxb
                  rw [show noDoubleHyphen (a :: x :: xs) =
                    (!(a = '-' && x = '-') && noDoubleHyphen (x :: xs))
                    from rfl]
                  rw [← hx, hrest]
                  rw [show noDoubleHyphen (a :: x :: r) =
                    (!(a = '-' && x = '-') && noDoubleHyphen (x :: r))
                    from rfl] at h
                  simpa using (Bool.and_eq_true_iff.mp h).1

/-- The last character surviving `dropTrailing` does not satisfy the
predicate. -/
theorem getLast?_dropTrailing_not (p : Char → Bool) (l : List Char)
    (c : Char) (h : (dropTrailing p l).getLast? = some c) : p c = false := by
  induction l with
  | nil => simp [dropTrailing] at h
  | cons a rest ih =>
      rw [show dropTrailing p (a :: rest) =
        (if (dropTrailing p rest).isEmpty && p a then []
         else a :: dropTrailing p rest) from rfl] at h
      by_cases hc : (dropTrailing p rest).isEmpty && p a
      · rw [if_pos hc] at h
        simp at h
      · rw [if_neg hc] at h
        cases hx : dropTrailing p rest with
        | nil =>
            rw [hx] at h hc
            simp at h hc
            rw [← h]
            simpa using hc
        | cons x xs =>
            rw [hx] at h
            rw [List.getLast?_cons_cons] at h
            exact ih (hx ▸ h)

/-- Sublists keep `all`. -/
theorem all_of_sublist (p : Char → Bool) (l l' : List Char)
    (h : List.Sublist l' l) (h2 : l.all p = true) : l'.all p = true := by
  rw [List.all_eq_true] at h2 ⊢
  intro x hx
  exact h2 x (h.subset hx)

/-- The core of C9: stripping end hyphens from a collapsed, filtered list
yields a filesystem-safe slug. -/
theorem stripped_slugSafe (l : List Char) (hall : l.all slugChar = true) :
    slugSafe (pyStripBy (fun c => c = '-') (collapseHyphens l)) = true := by
  have hsub : List.Sublist
      (pyStripBy (fun c => c = '-') (collapseHyphens l)) l := by
    refine List.Sublist.trans ?_ (collapseHyphens_sublist l)
    refine List.Sublist.trans (dropTrailing_sublist _ _) ?_
    exact (List.dropWhile_suffix _).sublist
  have hA : (pyStripBy (fun c => c = '-') (collapseHyphens l)).all slugChar
      = true := all_of_sublist _ _ _ hsub hall
  have hB : noDoubleHyphen
      (pyStripBy (fun c => c = '-') (collapseHyphens l)) = true := by
    refine noDoubleHyphen_dropTrailing _ _ ?_
    exact noDoubleHyphen_dropWhile _ _ (noDoubleHyphen_collapseHyphens l)
  have hC : (pyStripBy (fun c => c = '-') (collapseHyphens l)).head? ≠
      some '-' := by
    intro hcon
    rcases dropTrailing_head? (fun c => c = '-')
        ((collapseHyphens l).dropWhile (fun c => c = '-')) with he | he
    · rw [pyStripBy] at hcon
      rw [he] at hcon
      simp at hcon
    · rw [pyStripBy] at hcon
      rw [he] at hcon
      have := head?_dropWhile_not (fun c => c = '-') (collapseHyphens l)
        '-' hcon
      simp at this
  have hD : (pyStripBy (fun c => c = '-') (collapseHyphens l)).getLast? ≠
      some '-' := by
    intro hcon
    have := getLast?_dropTrailing_not (fun c => c = '-') _ '-' hcon
    simp at this
  rw [slugSafe]
  rw [hA, hB]
  simp [hC, hD]

/-- C9: for every project name, the slug consists only of lowercase ASCII
letters, digits and hyphens with no leading, trailing or consecutive
hyphens, and is never empty (falling back to the fixed `"workspace"`
placeholder).  Determinism is definitional: `slugify` is a pure function of
the name. -/
theorem slugify_safe (n : List Char) :
    (slugify n).isEmpty = false ∧ slugSafe (slugify n) = true := by
  simp only [slugify]
  by_cases h5 : (pyStripBy (fun c => c = '-')
      (collapseHyphens
        (((n.map lowerChar).map
          (fun c => if c = ' ' || c = '_' then '-' else c)).filter
            slugChar))).isEmpty
  · rw [if_pos h5]
    constructor <;> decide
  · rw [if_neg h5]
    refine ⟨by simpa using h5, ?_⟩
    refine stripped_slugSafe _ ?_
    rw [List.all_eq_true]
    intro x hx
    exact (List.mem_filter.mp hx).2

end SlackCline
